import Mathlib

/-!
Shallow embedding of the sqlworker repository: the local SQLite client
(src/src/db.ts), the subscription client (src/src/main.ts) and the
Durable Object worker (src/worker/src/index.ts).
-/

namespace SqlWorker

/-- Whitespace as stripped by the JavaScript string trim method. -/
def isJsWhitespace (c : Char) : Bool :=
  c = ' ' || c = '\t' || c = '\n' || c = '\r' || c = '\x0b' || c = '\x0c'

/-- Strip leading and trailing whitespace from a character list. -/
def trimChars (cs : List Char) : List Char :=
  ((cs.dropWhile isJsWhitespace).reverse.dropWhile isJsWhitespace).reverse

/-- The JavaScript string trim method, used by the validation and id
normalization code. -/
def jsTrim (s : String) : String :=
  String.mk (trimChars s.data)

/-- Entry record as stored in both the local and the remote store
(interface EntryRecord in db.ts and worker index.ts). -/
structure EntryRecord where
  id : String
  title : String
  content : String
  createdAt : String
deriving Repr, DecidableEq

/-- Input to insertEntry and sendEntry (interface EntryInput): id and
createdAt are optional and assigned by the store when absent. -/
structure EntryInput where
  id : Option String
  title : String
  content : String
  createdAt : Option String
deriving Repr, DecidableEq

/-- The DO UPDATE SET clause of the upsert statement: a conflicting row
keeps its id and takes title, content and created_at from the excluded
row. -/
def applyConflictUpdate (e r : EntryRecord) : EntryRecord :=
  if r.id = e.id then
    { r with title := e.title, content := e.content, createdAt := e.createdAt }
  else r

/-- Effect of the SQL statement INSERT ... ON CONFLICT(id) DO UPDATE SET
title, content, created_at used by insertEntry and syncEntries in db.ts:
if a row with the id exists its value fields are overwritten, otherwise
the row is appended. -/
def upsert (s : List EntryRecord) (e : EntryRecord) : List EntryRecord :=
  if s.any (fun r => r.id = e.id) then s.map (applyConflictUpdate e)
  else s ++ [e]

/-- SELECT by primary key: the first row whose id matches. -/
def lookupEntry (s : List EntryRecord) (i : String) : Option EntryRecord :=
  s.find? (fun r => r.id = i)

/-- SQL statements issued by syncEntries in db.ts. -/
inductive SqlOp where
  | beginTxn : SqlOp
  | upsertOp : EntryRecord → SqlOp
  | commit : SqlOp
  | rollback : SqlOp
deriving Repr, DecidableEq

/-- Local database state: the committed table plus an optional open
transaction holding the shadow table the statements act on. -/
structure DBState where
  committed : List EntryRecord
  txn : Option (List EntryRecord)
deriving Repr, DecidableEq

/-- Semantics of one successfully executed SQL statement. -/
def applyOp (db : DBState) (op : SqlOp) : DBState :=
  match op with
  | .beginTxn => { db with txn := some db.committed }
  | .upsertOp e =>
    match db.txn with
    | some t => { db with txn := some (upsert t e) }
    | none => { db with committed := upsert db.committed e }
  | .commit =>
    match db.txn with
    | some t => { committed := t, txn := none }
    | none => db
  | .rollback => { db with txn := none }

/-- Execution state threaded through syncEntries: the database, the index
of the next promiser exec call (used by the fault model) and the trace of
statements that executed successfully. -/
structure ExecState where
  db : DBState
  k : Nat
  trace : List SqlOp
deriving Repr, DecidableEq

/-- One promiser exec call. The fault model fail tells whether the call
with a given index throws; a throwing call has no effect on the database. -/
def tryExec (fail : Nat → Bool) (s : ExecState) (op : SqlOp) : Bool × ExecState :=
  if fail s.k then (false, { s with k := s.k + 1 })
  else (true, { db := applyOp s.db op, k := s.k + 1, trace := s.trace ++ [op] })

/-- The loop of syncEntries in db.ts: entries with an empty id are
skipped, each other entry is upserted with one exec call; the first
throwing call aborts the loop. -/
def runUpserts (fail : Nat → Bool) : List EntryRecord → ExecState → Bool × ExecState
  | [], s => (true, s)
  | e :: rest, s =>
    if e.id = "" then runUpserts fail rest s
    else
      match tryExec fail s (.upsertOp e) with
      | (false, s1) => (false, s1)
      | (true, s1) => runUpserts fail rest s1

/-- The catch block of syncEntries: issue ROLLBACK and ignore its own
failure. -/
def doCatch (fail : Nat → Bool) (s : ExecState) : ExecState :=
  (tryExec fail s .rollback).2

/-- syncEntries from db.ts under the fault model: an empty batch returns
at once; otherwise BEGIN, the upsert loop and COMMIT run in order and any
throwing exec call diverts to the catch block, whose error is rethrown
(the Bool result is false exactly when syncEntries throws). -/
def syncEntriesRun (db : DBState) (entries : List EntryRecord) (fail : Nat → Bool) :
    Bool × ExecState :=
  if entries = [] then (true, ⟨db, 0, []⟩)
  else
    match tryExec fail ⟨db, 0, []⟩ .beginTxn with
    | (false, s1) => (false, doCatch fail s1)
    | (true, s1) =>
      match runUpserts fail entries s1 with
      | (false, s2) => (false, doCatch fail s2)
      | (true, s2) =>
        match tryExec fail s2 .commit with
        | (false, s3) => (false, doCatch fail s3)
        | (true, s3) => (true, s3)

/-- syncRemoteEntries from main.ts, restricted to the store effects: the
fetched remote entries are merged with syncEntries; the pending remote
update map is cleared only when syncEntries returns without throwing. -/
def syncRemoteEntries (db : DBState) (remoteUpdates : List (String × EntryRecord))
    (remoteEntries : List EntryRecord) (fail : Nat → Bool) :
    DBState × List (String × EntryRecord) :=
  match syncEntriesRun db remoteEntries fail with
  | (true, s) => (s.db, [])
  | (false, s) => (s.db, remoteUpdates)

/-- The cumulative effect of the upsert loop of syncEntries on a table:
entries with an empty id are skipped, the others upserted in order. -/
def applyBatch (t : List EntryRecord) (es : List EntryRecord) : List EntryRecord :=
  es.foldl (fun a e => if e.id = "" then a else upsert a e) t

/-- Durable Object storage view: an association list from keys to entry
records, written through storage.put and storage.delete. -/
abbrev KVStore := List (String × EntryRecord)

/-- Overwrite step of storage.put for one stored pair. -/
def kvPutUpdate (key : String) (v : EntryRecord) (p : String × EntryRecord) :
    String × EntryRecord :=
  if p.1 = key then (key, v) else p

/-- storage.put: overwrite the value under the key when present, append
otherwise. -/
def kvPut (kv : KVStore) (key : String) (v : EntryRecord) : KVStore :=
  if kv.any (fun p => p.1 = key) then kv.map (kvPutUpdate key v)
  else kv ++ [(key, v)]

/-- storage.get for a single key. -/
def kvGet (kv : KVStore) (key : String) : Option EntryRecord :=
  (kv.find? (fun p => p.1 = key)).map (fun p => p.2)

/-- storage.delete. -/
def kvDelete (kv : KVStore) (key : String) : KVStore :=
  kv.filter (fun p => p.1 ≠ key)

/-- Key layout of the Durable Object storage: ENTRY_PREFIX plus the id. -/
def entryKey (i : String) : String := "entry:" ++ i

/-- Id resolution in EntriesDurableObject.insertEntry: a supplied id that
trims to a nonempty string is used trimmed, otherwise a fresh ulid (the
ulid is nondeterministic and passed as the genId parameter). -/
def resolveEntryId (i : Option String) (genId : String) : String :=
  match i with
  | some s => if jsTrim s = "" then genId else jsTrim s
  | none => genId

/-- EntriesDurableObject.insertEntry restricted to its storage effect:
resolve id and createdAt, build the record, put it under its key and
return it (nowIso stands for new Date().toISOString()). -/
def remoteInsertEntry (store : KVStore) (input : EntryInput) (genId nowIso : String) :
    KVStore × EntryRecord :=
  let i := resolveEntryId input.id genId
  let createdAt := input.createdAt.getD nowIso
  let record : EntryRecord := ⟨i, input.title, input.content, createdAt⟩
  (kvPut store (entryKey i) record, record)

/-- JavaScript values as far as the RPC validation code inspects them:
strings, finite numbers, nonfinite numbers, booleans, null, undefined and
plain objects. -/
inductive JsValue where
  | str : String → JsValue
  | num : Int → JsValue
  | nonfinite : JsValue
  | boolean : Bool → JsValue
  | null : JsValue
  | undefined : JsValue
  | obj : List (String × JsValue) → JsValue
deriving Repr

/-- Property access on a JavaScript value: undefined on a missing field
or on a non-object. -/
def getField (v : JsValue) (name : String) : JsValue :=
  match v with
  | .obj fs => ((fs.find? (fun p => p.1 = name)).map (fun p => p.2)).getD .undefined
  | _ => .undefined

/-- The JavaScript nullish coalescing operator. -/
def coalesce (a b : JsValue) : JsValue :=
  match a with
  | .null => b
  | .undefined => b
  | _ => a

/-- sanitizeField from worker index.ts: the value must be a string whose
trimmed form is nonempty and at most 2048 characters; the trimmed string
is returned, otherwise a TypeError is thrown (modelled as Except.error
carrying the message). -/
def sanitizeField (v : JsValue) (field : String) : Except String String :=
  match v with
  | .str s =>
    if jsTrim s = "" then .error ("Entry " ++ field ++ " cannot be empty.")
    else if (jsTrim s).length > 2048 then
      .error ("Entry " ++ field ++ " exceeds the maximum length.")
    else .ok (jsTrim s)
  | _ => .error ("Entry " ++ field ++ " must be a string.")

/-- validateEntryInput from worker index.ts: params must be an object,
title and content are sanitized, id is taken from id or entryId when it
is a nonempty-trimming string or a finite number, createdAt from
createdAt or created_at when it is a nonempty string. -/
def validateEntryInput (params : JsValue) : Except String EntryInput :=
  match params with
  | .obj _ =>
    match sanitizeField (getField params "title") "title" with
    | .error e => .error e
    | .ok title =>
      match sanitizeField (getField params "content") "content" with
      | .error e => .error e
      | .ok content =>
        let idValue := coalesce (getField params "id") (getField params "entryId")
        let createdAtValue := coalesce (getField params "createdAt") (getField params "created_at")
        let candidateId : Option String :=
          match idValue with
          | .str s => if jsTrim s = "" then none else some (jsTrim s)
          | _ => none
        let candidateIdFromNumber : Option String :=
          match idValue with
          | .num n => some (toString n)
          | _ => none
        let createdAt : Option String :=
          match createdAtValue with
          | .str s => if s = "" then none else some s
          | _ => none
        .ok ⟨candidateId <|> candidateIdFromNumber, title, content, createdAt⟩
  | _ => .error "Entry parameters must be an object."

/-- EntriesRpcServer.sendEntry: validate, then insert; a validation error
is thrown before any storage access. -/
def sendEntry (store : KVStore) (params : JsValue) (genId nowIso : String) :
    Except String (KVStore × EntryRecord) :=
  match validateEntryInput params with
  | .error e => .error e
  | .ok input => .ok (remoteInsertEntry store input genId nowIso)

/-- The store visible after a sendEntry call: unchanged when the call
throws. -/
def sendEntryStore (store : KVStore) (params : JsValue) (genId nowIso : String) : KVStore :=
  match sendEntry store params genId nowIso with
  | .ok r => r.1
  | .error _ => store

/-- normalizeEntryIdentifier from worker index.ts: a string trimming to a
nonempty value, a finite number, or an object whose id field is one of
those; anything else throws a TypeError. -/
def normalizeEntryIdentifier (input : JsValue) : Except String String :=
  match input with
  | .str s =>
    if jsTrim s = "" then .error "Entry id must be provided as a non-empty string."
    else .ok (jsTrim s)
  | .num n => .ok (toString n)
  | .obj fs =>
    match getField (.obj fs) "id" with
    | .str s =>
      if jsTrim s = "" then .error "Entry id must be provided as a non-empty string."
      else .ok (jsTrim s)
    | .num n => .ok (toString n)
    | _ => .error "Entry id must be provided as a non-empty string."
  | _ => .error "Entry id must be provided as a non-empty string."

/-- EntriesRpcServer.deleteEntry: normalize the identifier, then delete
the record under its key. -/
def deleteEntryRpc (store : KVStore) (params : JsValue) :
    Except String (KVStore × String) :=
  match normalizeEntryIdentifier params with
  | .error e => .error e
  | .ok i => .ok (kvDelete store (entryKey i), i)

/-- The store visible after a deleteEntry call: unchanged when the call
throws. -/
def deleteEntryStore (store : KVStore) (params : JsValue) : KVStore :=
  match deleteEntryRpc store params with
  | .ok r => r.1
  | .error _ => store

/-- True exactly when sanitizeField rejects the value: not a string,
trims to empty, or trims to more than 2048 characters. -/
def fieldInvalid (v : JsValue) : Bool :=
  match v with
  | .str s => jsTrim s = "" || decide ((jsTrim s).length > 2048)
  | _ => true

/-- True exactly when an Except value carries an error. -/
def isErr {ε α : Type} : Except ε α → Bool
  | .error _ => true
  | .ok _ => false

/-! Notification hub (worker index.ts). Listener entries are identified
by a token; registry is the updateListeners set, releaseAvail records
which entry objects still hold their release closure (entry.release is
nulled on first use, independently of set membership), releasedLog is
the sequence of release invocations performed. -/

/-- State of the notification hub. -/
structure HubState where
  registry : List Nat
  releaseAvail : List Nat
  releasedLog : List Nat
deriving Repr, DecidableEq

/-- registerListener: add the retained listener entry to the set; the
release closure exists when the retained listener has close or dispose. -/
def registerListener (st : HubState) (l : Nat) (hasRelease : Bool) : HubState :=
  { st with
    registry := st.registry ++ [l],
    releaseAvail := if hasRelease then st.releaseAvail ++ [l] else st.releaseAvail }

/-- unsubscribeListener: call and null the release closure when it is
still present (its own failure is caught), then remove the entry from
the set. -/
def unsubscribeListener (st : HubState) (l : Nat) : HubState :=
  let st1 :=
    if l ∈ st.releaseAvail then
      { st with
        releaseAvail := st.releaseAvail.erase l,
        releasedLog := st.releasedLog ++ [l] }
    else st
  { st1 with registry := st1.registry.erase l }

/-- notifyListeners: snapshot the set, attempt one delivery per listener
(the fault model throws tells which deliveries throw; a throwing one is
caught and collected), then unsubscribe each failed listener. Returns
the new state and the listeners whose delivery succeeded. The function
itself never throws. -/
def notifyListeners (st : HubState) (throws : Nat → Bool) : HubState × List Nat :=
  let snapshot := st.registry
  let notified := snapshot.filter (fun l => !(throws l))
  let failures := snapshot.filter (fun l => throws l)
  (failures.foldl unsubscribeListener st, notified)

/-! Periodic generator alarm (worker index.ts). -/

/-- ensureRandomAlarm, run in the constructor inside
blockConcurrencyWhile: with an existing alarm strictly more than 1000 ms
in the future nothing happens; with an existing alarm at most 1000 ms
away one catch-up entry is generated and the alarm re-armed 15000 ms
out; with no alarm one initial entry is generated and the alarm armed.
Returns the number of entry generations performed and the resulting
alarm. -/
def ensureRandomAlarm (existing : Option Nat) (now : Nat) : Nat × Option Nat :=
  match existing with
  | some t =>
    if t > now + 1000 then (0, some t)
    else (1, some (now + 15000))
  | none => (1, some (now + 15000))

/-! Subscription client reconnect machinery (main.ts). The state keeps
whether workerClient is set and how many reconnect timers are armed. -/

/-- Reconnect-relevant state of the subscription client. -/
structure ClientState where
  hasSession : Bool
  pendingTimers : Nat
deriving Repr, DecidableEq

/-- Outcome of one attemptWorkerConnection run: the session and the
subscribe call succeed, session creation throws, or the subscribe call
throws. -/
inductive ConnectOutcome where
  | ok : ConnectOutcome
  | failCreate : ConnectOutcome
  | failSubscribe : ConnectOutcome
deriving Repr, DecidableEq

/-- scheduleWorkerReconnect: arm a timer only when none is pending. -/
def scheduleReconnect (n : Nat) : Nat := if n = 0 then 1 else n

/-- attemptWorkerConnection with its fault parameter. The second result
is the number of reconnect timers still pending at the moment the
connection attempt (session creation and subscribe) is issued, none when
no attempt is issued because a session already exists. On success
clearWorkerReconnectTimer runs only after subscribe returns; on a
session-creation failure scheduleWorkerReconnect runs directly; on a
subscribe failure closeWorkerSession clears the timer and
scheduleWorkerReconnect arms one. -/
def attemptConnectionObs (st : ClientState) (o : ConnectOutcome) :
    ClientState × Option Nat :=
  if st.hasSession then (st, none)
  else
    match o with
    | .ok => (⟨true, 0⟩, some st.pendingTimers)
    | .failCreate => (⟨false, scheduleReconnect st.pendingTimers⟩, some st.pendingTimers)
    | .failSubscribe => (⟨false, 1⟩, some st.pendingTimers)

/-- attemptWorkerConnection, state effect only. -/
def attemptConnection (st : ClientState) (o : ConnectOutcome) : ClientState :=
  (attemptConnectionObs st o).1

/-- Events driving the reconnect state: an explicit schedule request, a
timer firing (the callback nulls the timer, then attempts), a manual
connect, and closeWorkerSession (which clears the timer). -/
inductive ClientEvent where
  | schedule : ClientEvent
  | timerFire : ConnectOutcome → ClientEvent
  | manualConnect : ConnectOutcome → ClientEvent
  | closeSession : ClientEvent
deriving Repr, DecidableEq

/-- One client event step. -/
def clientStep (st : ClientState) (e : ClientEvent) : ClientState :=
  match e with
  | .schedule => { st with pendingTimers := scheduleReconnect st.pendingTimers }
  | .timerFire o =>
    if st.pendingTimers = 0 then st
    else attemptConnection { st with pendingTimers := st.pendingTimers - 1 } o
  | .manualConnect o => attemptConnection st o
  | .closeSession => ⟨false, 0⟩

/-- Initial client state: no session, no timer. -/
def clientInit : ClientState := ⟨false, 0⟩

/-- Reachable client states: fold the events from the initial state. -/
def runClient (es : List ClientEvent) : ClientState :=
  es.foldl clientStep clientInit

/-! ### Lemmas about the local upsert -/

theorem applyConflictUpdate_id (e r : EntryRecord) :
    (applyConflictUpdate e r).id = r.id := by
  unfold applyConflictUpdate
  split <;> rfl

theorem applyConflictUpdate_of_eq {e r : EntryRecord} (h : r.id = e.id) :
    applyConflictUpdate e r = e := by
  cases r
  cases e
  simp_all [applyConflictUpdate]

theorem upsert_cons_ne {r e : EntryRecord} (rest : List EntryRecord)
    (h : ¬ r.id = e.id) : upsert (r :: rest) e = r :: upsert rest e := by
  by_cases h2 : rest.any (fun x => x.id = e.id) <;>
    simp [upsert, h, h2, applyConflictUpdate]

theorem upsert_cons_eq {r e : EntryRecord} (rest : List EntryRecord)
    (h : r.id = e.id) :
    upsert (r :: rest) e = e :: rest.map (applyConflictUpdate e) := by
  have he := applyConflictUpdate_of_eq (e := e) (r := r) h
  simp [upsert, h, he]

theorem lookupEntry_map_update (rest : List EntryRecord) (e : EntryRecord)
    (i : String) (h : i ≠ e.id) :
    lookupEntry (rest.map (applyConflictUpdate e)) i = lookupEntry rest i := by
  induction rest with
  | nil => simp [lookupEntry]
  | cons x xs ih =>
    by_cases hx : x.id = i
    · have hxe : ¬ x.id = e.id := by
        rw [hx]
        exact h
      have hax : applyConflictUpdate e x = x := by
        simp [applyConflictUpdate, hxe]
      simp only [lookupEntry, List.map_cons, hax]
      rw [List.find?_cons_of_pos _ (by simp [hx]),
        List.find?_cons_of_pos _ (by simp [hx])]
    · have hid : (applyConflictUpdate e x).id = x.id := applyConflictUpdate_id e x
      simp only [lookupEntry, List.map_cons] at ih ⊢
      rw [List.find?_cons_of_neg _ (by simp [hid, hx]),
        List.find?_cons_of_neg _ (by simp [hx])]
      exact ih

theorem lookupEntry_upsert_self (s : List EntryRecord) (e : EntryRecord) :
    lookupEntry (upsert s e) e.id = some e := by
  induction s with
  | nil => simp [upsert, lookupEntry]
  | cons r rest ih =>
    by_cases h : r.id = e.id
    · rw [upsert_cons_eq rest h]
      simp [lookupEntry]
    · rw [upsert_cons_ne rest h]
      simpa [lookupEntry, h] using ih

theorem lookupEntry_upsert_other (s : List EntryRecord) (e : EntryRecord)
    (i : String) (h : i ≠ e.id) :
    lookupEntry (upsert s e) i = lookupEntry s i := by
  induction s with
  | nil =>
    simp [upsert, lookupEntry, Ne.symm h]
  | cons r rest ih =>
    by_cases hr : r.id = e.id
    · rw [upsert_cons_eq rest hr]
      have h1 : ¬ e.id = i := Ne.symm h
      have h2 : ¬ r.id = i := by
        rw [hr]
        exact h1
      simp only [lookupEntry] at *
      rw [List.find?_cons_of_neg _ (by simp [h1]),
        List.find?_cons_of_neg _ (by simp [h2])]
      exact lookupEntry_map_update rest e i h
    · rw [upsert_cons_ne rest hr]
      by_cases hri : r.id = i
      · simp [lookupEntry, hri]
      · simp only [lookupEntry] at *
        rw [List.find?_cons_of_neg _ (by simp [hri]),
          List.find?_cons_of_neg _ (by simp [hri])]
        exact ih

theorem countP_map_update (rest : List EntryRecord) (e : EntryRecord) :
    (rest.map (applyConflictUpdate e)).countP (fun x => x.id = e.id)
      = rest.countP (fun x => x.id = e.id) := by
  rw [List.countP_map]
  have hc : ((fun x : EntryRecord => decide (x.id = e.id)) ∘ applyConflictUpdate e)
      = fun x : EntryRecord => decide (x.id = e.id) := by
    funext x
    simp [Function.comp, applyConflictUpdate_id]
  rw [hc]

theorem countP_upsert (s : List EntryRecord) (e : EntryRecord)
    (h : s.countP (fun r => r.id = e.id) ≤ 1) :
    (upsert s e).countP (fun r => r.id = e.id) = 1 := by
  unfold upsert
  split
  · rename_i hany
    rw [countP_map_update]
    have hpos : 0 < s.countP (fun r => r.id = e.id) := by
      rw [List.countP_pos_iff]
      simpa using hany
    omega
  · rename_i hany
    have h0 : s.countP (fun r => r.id = e.id) = 0 := by
      rw [List.countP_eq_zero]
      intro a ha
      simp only [List.any_eq_true, not_exists] at hany
      simpa using fun hc => hany a ⟨ha, by simpa using hc⟩
    simp [List.countP_append, h0]

/-! ### Lemmas about the Durable Object storage map -/

theorem kvPutUpdate_key (key : String) (v : EntryRecord) (p : String × EntryRecord) :
    (kvPutUpdate key v p).1 = p.1 := by
  unfold kvPutUpdate
  split
  · rename_i hp
    exact hp.symm
  · rfl

theorem kvPut_cons_ne {p : String × EntryRecord} {key : String} (v : EntryRecord)
    (rest : KVStore) (h : ¬ p.1 = key) :
    kvPut (p :: rest) key v = p :: kvPut rest key v := by
  by_cases h2 : rest.any (fun q => q.1 = key) <;>
    simp [kvPut, h, h2, kvPutUpdate]

theorem kvPut_cons_eq {p : String × EntryRecord} {key : String} (v : EntryRecord)
    (rest : KVStore) (h : p.1 = key) :
    kvPut (p :: rest) key v = (key, v) :: rest.map (kvPutUpdate key v) := by
  simp [kvPut, h, kvPutUpdate]

theorem kvGet_kvPut_self (kv : KVStore) (key : String) (v : EntryRecord) :
    kvGet (kvPut kv key v) key = some v := by
  induction kv with
  | nil => simp [kvPut, kvGet]
  | cons p rest ih =>
    by_cases h : p.1 = key
    · rw [kvPut_cons_eq v rest h]
      simp [kvGet]
    · rw [kvPut_cons_ne v rest h]
      simpa [kvGet, h] using ih

theorem countP_map_kvPutUpdate (rest : KVStore) (key : String) (v : EntryRecord) :
    (rest.map (kvPutUpdate key v)).countP (fun p => p.1 = key)
      = rest.countP (fun p => p.1 = key) := by
  rw [List.countP_map]
  have hc : ((fun p : String × EntryRecord => decide (p.1 = key)) ∘ kvPutUpdate key v)
      = fun p : String × EntryRecord => decide (p.1 = key) := by
    funext p
    simp [Function.comp, kvPutUpdate_key]
  rw [hc]

theorem countP_kvPut (kv : KVStore) (key : String) (v : EntryRecord)
    (h : kv.countP (fun p => p.1 = key) ≤ 1) :
    (kvPut kv key v).countP (fun p => p.1 = key) = 1 := by
  unfold kvPut
  split
  · rename_i hany
    rw [countP_map_kvPutUpdate]
    have hpos : 0 < kv.countP (fun p => p.1 = key) := by
      rw [List.countP_pos_iff]
      simpa using hany
    omega
  · rename_i hany
    have h0 : kv.countP (fun p => p.1 = key) = 0 := by
      rw [List.countP_eq_zero]
      intro a ha
      simp only [List.any_eq_true, not_exists] at hany
      simpa using fun hc => hany a ⟨ha, by simpa using hc⟩
    simp [List.countP_append, h0]

/-! ### Claim theorems C8 and C3 -/

/-- C8: upserting the same id twice, through the local
insertEntry/syncEntries upsert statement and through the remote
insertEntry storage.put, leaves exactly one record stored under that id
and that record holds the title and content of the latest upsert. -/
theorem C8_upsert_last_write_wins
    (s : List EntryRecord) (kv : KVStore) (e1 e2 : EntryRecord)
    (i1 i2 : EntryInput) (g1 n1 g2 n2 : String)
    (hid : e2.id = e1.id)
    (hcount : s.countP (fun r => r.id = e1.id) ≤ 1)
    (hrid : resolveEntryId i2.id g2 = resolveEntryId i1.id g1)
    (hkvcount : kv.countP (fun p => p.1 = entryKey (resolveEntryId i1.id g1)) ≤ 1) :
    ((upsert (upsert s e1) e2).countP (fun r => r.id = e1.id) = 1 ∧
      lookupEntry (upsert (upsert s e1) e2) e1.id = some e2) ∧
    ((remoteInsertEntry (remoteInsertEntry kv i1 g1 n1).1 i2 g2 n2).1.countP
        (fun p => p.1 = entryKey (resolveEntryId i1.id g1)) = 1 ∧
      kvGet (remoteInsertEntry (remoteInsertEntry kv i1 g1 n1).1 i2 g2 n2).1
          (entryKey (resolveEntryId i1.id g1))
        = some (remoteInsertEntry (remoteInsertEntry kv i1 g1 n1).1 i2 g2 n2).2 ∧
      (remoteInsertEntry (remoteInsertEntry kv i1 g1 n1).1 i2 g2 n2).2.title = i2.title ∧
      (remoteInsertEntry (remoteInsertEntry kv i1 g1 n1).1 i2 g2 n2).2.content = i2.content) := by
  constructor
  · constructor
    · have h1 : (upsert s e1).countP (fun r => r.id = e1.id) = 1 :=
        countP_upsert s e1 hcount
      have h2 := countP_upsert (upsert s e1) e2 (by rw [hid]; omega)
      rwa [hid] at h2
    · have := lookupEntry_upsert_self (upsert s e1) e2
      rwa [hid] at this
  · refine ⟨?_, ?_, rfl, rfl⟩
    · have h1 : ((remoteInsertEntry kv i1 g1 n1).1).countP
          (fun p => p.1 = entryKey (resolveEntryId i1.id g1)) = 1 := by
        simpa [remoteInsertEntry] using
          countP_kvPut kv (entryKey (resolveEntryId i1.id g1)) _ hkvcount
      have h2 := countP_kvPut (remoteInsertEntry kv i1 g1 n1).1
        (entryKey (resolveEntryId i2.id g2)) ⟨resolveEntryId i2.id g2, i2.title,
          i2.content, i2.createdAt.getD n2⟩ (by rw [hrid]; omega)
      simpa [remoteInsertEntry, hrid] using h2
    · have := kvGet_kvPut_self (remoteInsertEntry kv i1 g1 n1).1
        (entryKey (resolveEntryId i2.id g2)) ⟨resolveEntryId i2.id g2, i2.title,
          i2.content, i2.createdAt.getD n2⟩
      simpa [remoteInsertEntry, hrid] using this

/-- C8 witness: the theorem applied to a concrete store holding one
record under id A, upserted twice with different values. -/
theorem C8_witness :
    ((upsert (upsert [⟨"A", "t0", "c0", "d0"⟩] ⟨"A", "t1", "c1", "d1"⟩)
        ⟨"A", "t2", "c2", "d2"⟩).countP (fun r => r.id = "A") = 1 ∧
      lookupEntry (upsert (upsert [⟨"A", "t0", "c0", "d0"⟩] ⟨"A", "t1", "c1", "d1"⟩)
        ⟨"A", "t2", "c2", "d2"⟩) "A" = some ⟨"A", "t2", "c2", "d2"⟩) ∧
    ((remoteInsertEntry (remoteInsertEntry [] ⟨some "A", "t1", "c1", some "d1"⟩ "G1" "N1").1
        ⟨some "A", "t2", "c2", some "d2"⟩ "G2" "N2").1.countP
          (fun p => p.1 = entryKey (resolveEntryId (some "A") "G1")) = 1 ∧
      kvGet (remoteInsertEntry (remoteInsertEntry [] ⟨some "A", "t1", "c1", some "d1"⟩ "G1" "N1").1
          ⟨some "A", "t2", "c2", some "d2"⟩ "G2" "N2").1
          (entryKey (resolveEntryId (some "A") "G1"))
        = some (remoteInsertEntry
            (remoteInsertEntry [] ⟨some "A", "t1", "c1", some "d1"⟩ "G1" "N1").1
            ⟨some "A", "t2", "c2", some "d2"⟩ "G2" "N2").2 ∧
      (remoteInsertEntry (remoteInsertEntry [] ⟨some "A", "t1", "c1", some "d1"⟩ "G1" "N1").1
          ⟨some "A", "t2", "c2", some "d2"⟩ "G2" "N2").2.title = "t2" ∧
      (remoteInsertEntry (remoteInsertEntry [] ⟨some "A", "t1", "c1", some "d1"⟩ "G1" "N1").1
          ⟨some "A", "t2", "c2", some "d2"⟩ "G2" "N2").2.content = "c2") :=
  C8_upsert_last_write_wins [⟨"A", "t0", "c0", "d0"⟩] []
    ⟨"A", "t1", "c1", "d1"⟩ ⟨"A", "t2", "c2", "d2"⟩
    ⟨some "A", "t1", "c1", some "d1"⟩ ⟨some "A", "t2", "c2", some "d2"⟩
    "G1" "N1" "G2" "N2" rfl (by decide) (by decide) (by decide)

/-- C3 counterexample: upserting id A a second time with a different
createdAt overwrites the stored createdAt, both in the local store (the
ON CONFLICT clause sets created_at to the excluded value) and in the
remote store (storage.put overwrites the whole record), so createdAt is
not immutable under repeated insertEntry/syncEntries calls. -/
theorem C3_counterexample :
    lookupEntry (upsert (upsert [] ⟨"A", "t1", "c1", "2024-01-01"⟩)
        ⟨"A", "t2", "c2", "2024-02-02"⟩) "A"
      = some ⟨"A", "t2", "c2", "2024-02-02"⟩ ∧
    kvGet (remoteInsertEntry
        (remoteInsertEntry [] ⟨some "A", "t1", "c1", some "2024-01-01"⟩ "G1" "N1").1
        ⟨some "A", "t2", "c2", some "2024-02-02"⟩ "G2" "N2").1 (entryKey "A")
      = some ⟨"A", "t2", "c2", "2024-02-02"⟩ ∧
    ("2024-02-02" : String) ≠ "2024-01-01" := by
  refine ⟨by decide, by decide, by decide⟩

/-- C3 amended: createdAt is set at insertion, but a later upsert of the
same id (local insertEntry/syncEntries upsert or remote insertEntry)
overwrites it together with title and content, so the stored createdAt
is always the one supplied by the latest upsert of that id. -/
theorem C3_amended_createdAt_last_write
    (s : List EntryRecord) (kv : KVStore) (e1 e2 : EntryRecord)
    (i1 i2 : EntryInput) (g1 n1 g2 n2 : String)
    (hid : e2.id = e1.id)
    (hrid : resolveEntryId i2.id g2 = resolveEntryId i1.id g1) :
    (lookupEntry (upsert (upsert s e1) e2) e1.id).map (fun r => r.createdAt)
      = some e2.createdAt ∧
    (kvGet (remoteInsertEntry (remoteInsertEntry kv i1 g1 n1).1 i2 g2 n2).1
        (entryKey (resolveEntryId i1.id g1))).map (fun r => r.createdAt)
      = some (i2.createdAt.getD n2) := by
  constructor
  · have h := lookupEntry_upsert_self (upsert s e1) e2
    rw [hid] at h
    rw [h]
    rfl
  · have hout : (remoteInsertEntry (remoteInsertEntry kv i1 g1 n1).1 i2 g2 n2).1
        = kvPut (remoteInsertEntry kv i1 g1 n1).1 (entryKey (resolveEntryId i2.id g2))
            ⟨resolveEntryId i2.id g2, i2.title, i2.content, i2.createdAt.getD n2⟩ := rfl
    rw [hout, ← hrid, kvGet_kvPut_self]
    rfl

/-- C3 amended witness: the amended theorem at a concrete pair of
upserts of id A with distinct createdAt values. -/
theorem C3_amended_witness :
    (lookupEntry (upsert (upsert [] ⟨"A", "t1", "c1", "2024-01-01"⟩)
        ⟨"A", "t2", "c2", "2024-02-02"⟩) "A").map (fun r => r.createdAt)
      = some "2024-02-02" ∧
    (kvGet (remoteInsertEntry
        (remoteInsertEntry [] ⟨some "A", "t1", "c1", some "2024-01-01"⟩ "G1" "N1").1
        ⟨some "A", "t2", "c2", some "2024-02-02"⟩ "G2" "N2").1
        (entryKey (resolveEntryId (some "A") "G1"))).map (fun r => r.createdAt)
      = some "2024-02-02" :=
  C3_amended_createdAt_last_write [] [] ⟨"A", "t1", "c1", "2024-01-01"⟩
    ⟨"A", "t2", "c2", "2024-02-02"⟩ ⟨some "A", "t1", "c1", some "2024-01-01"⟩
    ⟨some "A", "t2", "c2", some "2024-02-02"⟩ "G1" "N1" "G2" "N2" rfl (by decide)

/-! ### Lemmas about the notification hub -/

theorem erase_append_singleton {α : Type} [DecidableEq α] {l : List α} {a : α}
    (h : a ∉ l) : (l ++ [a]).erase a = l := by
  rw [List.erase_append_right _ h, List.erase_cons_head, List.append_nil]

theorem filter_eq_singleton_of_unique {l : List Nat} {k : Nat} (p : Nat → Bool)
    (hnd : l.Nodup) (hk : k ∈ l) (hp : ∀ x ∈ l, (p x = true ↔ x = k)) :
    l.filter p = [k] := by
  induction l with
  | nil => cases hk
  | cons a rest ih =>
    rcases List.mem_cons.mp hk with rfl | hmem
    · have hpa : p k = true := (hp k (by simp)).mpr rfl
      have hrest : rest.filter p = [] := by
        rw [List.filter_eq_nil_iff]
        intro x hx hpx
        have hxk : x = k := (hp x (List.mem_cons_of_mem _ hx)).mp hpx
        subst hxk
        exact (List.nodup_cons.mp hnd).1 hx
      rw [List.filter_cons_of_pos hpa, hrest]
    · have hanek : a ≠ k := by
        rintro rfl
        exact (List.nodup_cons.mp hnd).1 hmem
      have hpa : ¬ p a = true := fun hpa => hanek ((hp a (by simp)).mp hpa)
      rw [List.filter_cons_of_neg hpa]
      exact ih (List.nodup_cons.mp hnd).2 hmem
        (fun x hx => hp x (List.mem_cons_of_mem _ hx))

theorem unsubscribeListener_registry (st : HubState) (l : Nat) :
    (unsubscribeListener st l).registry = st.registry.erase l := by
  unfold unsubscribeListener
  split <;> rfl

theorem unsubscribeListener_log_of_avail (st : HubState) (l : Nat)
    (h : l ∈ st.releaseAvail) :
    (unsubscribeListener st l).releasedLog = st.releasedLog ++ [l] := by
  simp [unsubscribeListener, h]

/-! ### Claim theorems C5 and C2 -/

/-- C5: registering a fresh listener and unsubscribing it deregisters it
and performs its release exactly once; a second unsubscribe call on the
same handle changes nothing, releasing nothing again. -/
theorem C5_unsubscribe_exactly_once (st : HubState) (l : Nat)
    (h1 : l ∉ st.registry) (h2 : l ∉ st.releaseAvail) :
    (l ∈ (registerListener st l true).registry) ∧
    (unsubscribeListener (registerListener st l true) l).registry = st.registry ∧
    (l ∉ (unsubscribeListener (registerListener st l true) l).registry) ∧
    (unsubscribeListener (registerListener st l true) l).releaseAvail
      = st.releaseAvail ∧
    (unsubscribeListener (registerListener st l true) l).releasedLog
      = st.releasedLog ++ [l] ∧
    unsubscribeListener (unsubscribeListener (registerListener st l true) l) l
      = unsubscribeListener (registerListener st l true) l := by
  have e1 : (st.registry ++ [l]).erase l = st.registry := erase_append_singleton h1
  have e2 : (st.releaseAvail ++ [l]).erase l = st.releaseAvail :=
    erase_append_singleton h2
  have hmem : l ∈ st.releaseAvail ++ [l] := by simp
  have hst1 : unsubscribeListener (registerListener st l true) l
      = ⟨st.registry, st.releaseAvail, st.releasedLog ++ [l]⟩ := by
    simp [registerListener, unsubscribeListener, hmem, e1, e2]
  refine ⟨by simp [registerListener], by rw [hst1], by rw [hst1]; exact h1,
    by rw [hst1], by rw [hst1], ?_⟩
  rw [hst1]
  simp [unsubscribeListener, h2, List.erase_of_not_mem h1]

/-- C5 witness: a hub with one other listener, registering and
unsubscribing listener 7 twice. -/
theorem C5_witness :
    (7 ∈ (registerListener ⟨[3], [3], []⟩ 7 true).registry) ∧
    (unsubscribeListener (registerListener ⟨[3], [3], []⟩ 7 true) 7).registry = [3] ∧
    (7 ∉ (unsubscribeListener (registerListener ⟨[3], [3], []⟩ 7 true) 7).registry) ∧
    (unsubscribeListener (registerListener ⟨[3], [3], []⟩ 7 true) 7).releaseAvail = [3] ∧
    (unsubscribeListener (registerListener ⟨[3], [3], []⟩ 7 true) 7).releasedLog
      = [] ++ [7] ∧
    unsubscribeListener (unsubscribeListener (registerListener ⟨[3], [3], []⟩ 7 true) 7) 7
      = unsubscribeListener (registerListener ⟨[3], [3], []⟩ 7 true) 7 :=
  C5_unsubscribe_exactly_once ⟨[3], [3], []⟩ 7 (by decide) (by decide)

/-- C2: when exactly one of the registered listeners throws on delivery,
notifyListeners delivers exactly one notification to each of the other
listeners, none to the failing one (no retry), removes the failing
listener from the registry (leaving one fewer listener) and performs its
release; notifyListeners itself returns normally (it is a total function
into plain state, every delivery failure being caught). -/
theorem C2_notify_failure_isolation (st : HubState) (throws : Nat → Bool) (k : Nat)
    (hnd : st.registry.Nodup) (hk : k ∈ st.registry)
    (hth : ∀ x ∈ st.registry, (throws x = true ↔ x = k))
    (hrel : k ∈ st.releaseAvail) :
    (notifyListeners st throws).1.registry = st.registry.erase k ∧
    (notifyListeners st throws).1.registry.length + 1 = st.registry.length ∧
    k ∉ (notifyListeners st throws).1.registry ∧
    (∀ x ∈ st.registry, x ≠ k → (notifyListeners st throws).2.count x = 1) ∧
    (notifyListeners st throws).2.count k = 0 ∧
    (notifyListeners st throws).1.releasedLog = st.releasedLog ++ [k] := by
  have hfail : st.registry.filter (fun x => throws x) = [k] :=
    filter_eq_singleton_of_unique (fun x => throws x) hnd hk hth
  have hfold : (notifyListeners st throws).1 = unsubscribeListener st k := by
    simp [notifyListeners, hfail]
  have hreg : (notifyListeners st throws).1.registry = st.registry.erase k := by
    rw [hfold, unsubscribeListener_registry]
  have hlenpos : 0 < st.registry.length :=
    List.length_pos.mpr (List.ne_nil_of_mem hk)
  have hnotified : (notifyListeners st throws).2
      = st.registry.filter (fun x => !(throws x)) := rfl
  refine ⟨hreg, ?_, ?_, ?_, ?_, ?_⟩
  · rw [hreg, List.length_erase_of_mem hk]
    omega
  · rw [hreg]
    exact hnd.not_mem_erase
  · intro x hx hxk
    have hthx : throws x = false := by
      cases hcase : throws x
      · rfl
      · exact absurd ((hth x hx).mp hcase) hxk
    have hcnt := List.count_filter (p := fun y => !(throws y)) (a := x)
      (l := st.registry) (by simp [hthx])
    rw [hnotified, hcnt]
    exact List.count_eq_one_of_mem hnd hx
  · rw [hnotified, List.count_eq_zero]
    intro hc
    have := (List.mem_filter.mp hc).2
    have hthk : throws k = true := (hth k hk).mpr rfl
    simp [hthk] at this
  · rw [hfold]
    exact unsubscribeListener_log_of_avail st k hrel

/-- C2 witness: three listeners 1, 2, 3 where only listener 2 throws on
delivery. -/
theorem C2_witness :
    (notifyListeners ⟨[1, 2, 3], [1, 2, 3], []⟩ (fun x => x = 2)).1.registry
      = [1, 2, 3].erase 2 ∧
    (notifyListeners ⟨[1, 2, 3], [1, 2, 3], []⟩ (fun x => x = 2)).1.registry.length + 1
      = ([1, 2, 3] : List Nat).length ∧
    2 ∉ (notifyListeners ⟨[1, 2, 3], [1, 2, 3], []⟩ (fun x => x = 2)).1.registry ∧
    (∀ x ∈ ([1, 2, 3] : List Nat), x ≠ 2 →
      (notifyListeners ⟨[1, 2, 3], [1, 2, 3], []⟩ (fun x => x = 2)).2.count x = 1) ∧
    (notifyListeners ⟨[1, 2, 3], [1, 2, 3], []⟩ (fun x => x = 2)).2.count 2 = 0 ∧
    (notifyListeners ⟨[1, 2, 3], [1, 2, 3], []⟩ (fun x => x = 2)).1.releasedLog
      = [] ++ [2] :=
  C2_notify_failure_isolation ⟨[1, 2, 3], [1, 2, 3], []⟩ (fun x => x = 2) 2
    (by decide) (by decide) (by decide) (by decide)

/-! ### Claim theorems C7 and C4 -/

/-- C7 counterexample: an alarm persisted for 500 ms in the future is
still in the future, yet ensureRandomAlarm performs a catch-up entry
generation for it, because the code treats any alarm within 1000 ms as
overdue. -/
theorem C7_counterexample :
    (ensureRandomAlarm (some 1000500) 1000000).1 = 1 ∧ 1000500 > 1000000 := by
  constructor
  · rfl
  · decide

/-- C7 amended: on construction, an overdue persisted alarm (and more
generally any alarm at most 1000 ms in the future) triggers exactly one
catch-up entry generation before the alarm is re-armed 15 s out, while
an alarm strictly more than 1000 ms in the future triggers none and is
left armed; the exclusivity of the startup section is a platform
guarantee of blockConcurrencyWhile outside this model. -/
theorem C7_alarm_catchup_amended (t now : Nat) :
    ((ensureRandomAlarm (some t) now).1 = if t ≤ now + 1000 then 1 else 0) ∧
    (t ≤ now → ensureRandomAlarm (some t) now = (1, some (now + 15000))) ∧
    (t > now + 1000 → ensureRandomAlarm (some t) now = (0, some t)) := by
  refine ⟨?_, ?_, ?_⟩
  · by_cases h : t ≤ now + 1000
    · simp [ensureRandomAlarm, h, Nat.not_lt.mpr h]
    · simp [ensureRandomAlarm, h, Nat.lt_of_not_le h]
  · intro h
    simp [ensureRandomAlarm, Nat.not_lt.mpr (by omega : t ≤ now + 1000)]
  · intro h
    simp [ensureRandomAlarm, h]

/-- C7 witness: the amended theorem at an overdue alarm (5 at time 10)
and at a far-future alarm (5000 at time 10). -/
theorem C7_witness :
    ensureRandomAlarm (some 5) 10 = (1, some 15010) ∧
    ensureRandomAlarm (some 5000) 10 = (0, some 5000) :=
  ⟨(C7_alarm_catchup_amended 5 10).2.1 (by decide),
   (C7_alarm_catchup_amended 5000 10).2.2 (by decide)⟩

/-- C4 counterexample: from the reachable state with one armed reconnect
timer (after one scheduleWorkerReconnect), a manual
attemptWorkerConnection issues its connection attempt while that timer
is still armed: the timer count observed at the attempt is 1, not 0, so
the manual call does not first cancel the pending timer. -/
theorem C4_counterexample :
    (runClient [ClientEvent.schedule]).pendingTimers = 1 ∧
    (attemptConnectionObs (runClient [ClientEvent.schedule]) ConnectOutcome.ok).2
      = some 1 ∧
    (attemptConnectionObs (runClient [ClientEvent.schedule]) ConnectOutcome.ok).2
      ≠ some 0 := by
  refine ⟨rfl, rfl, by decide⟩

/-- C4 amended: every reachable state of the subscription client has at
most one pending reconnect timer (scheduleWorkerReconnect is a no-op
while one is armed and the timer callback disarms itself before
attempting), and attemptWorkerConnection returns immediately when a
session already exists; the pending timer is however not cancelled
before a manual connection attempt, only after a successful subscribe. -/
theorem C4_single_timer_amended (es : List ClientEvent) (o : ConnectOutcome) (n : Nat) :
    (runClient es).pendingTimers ≤ 1 ∧
    attemptConnection ⟨true, n⟩ o = ⟨true, n⟩ := by
  constructor
  · have hstep : ∀ st : ClientState, ∀ e : ClientEvent,
        st.pendingTimers ≤ 1 → (clientStep st e).pendingTimers ≤ 1 := by
      intro st e h
      cases e with
      | schedule =>
        simp only [clientStep, scheduleReconnect]
        split <;> simp_all
      | timerFire o2 =>
        simp only [clientStep]
        split
        · exact h
        · simp only [attemptConnection, attemptConnectionObs]
          split
          · show st.pendingTimers - 1 ≤ 1
            omega
          · cases o2
            · simp
            · simp only [scheduleReconnect]
              split
              · simp
              · show st.pendingTimers - 1 ≤ 1
                omega
            · simp
      | manualConnect o2 =>
        simp only [clientStep, attemptConnection, attemptConnectionObs]
        split
        · exact h
        · cases o2
          · simp
          · simp only [scheduleReconnect]
            split
            · simp
            · simpa using h
          · simp
      | closeSession => simp [clientStep]
    have hrun : ∀ st : ClientState, st.pendingTimers ≤ 1 →
        (es.foldl clientStep st).pendingTimers ≤ 1 := by
      induction es with
      | nil => intro st h; exact h
      | cons e rest ih =>
        intro st h
        exact ih (clientStep st e) (hstep st e h)
    exact hrun clientInit (by simp [clientInit])
  · cases o <;> rfl

/-! ### Lemmas about RPC input validation -/

theorem isErr_sanitizeField (v : JsValue) (f : String) :
    isErr (sanitizeField v f) = fieldInvalid v := by
  cases v with
  | str s =>
    by_cases h1 : jsTrim s = ""
    · simp [sanitizeField, fieldInvalid, isErr, h1]
    · by_cases h2 : (jsTrim s).length > 2048
      · simp [sanitizeField, fieldInvalid, isErr, h1, h2]
      · simp [sanitizeField, fieldInvalid, isErr, h1, h2]
  | num n => rfl
  | nonfinite => rfl
  | boolean b => rfl
  | null => rfl
  | undefined => rfl
  | obj fs => rfl

theorem validate_err_of_invalid (params : JsValue)
    (h : fieldInvalid (getField params "title") = true ∨
         fieldInvalid (getField params "content") = true) :
    isErr (validateEntryInput params) = true := by
  cases params with
  | obj fs =>
    unfold validateEntryInput
    cases hT : sanitizeField (getField (.obj fs) "title") "title" with
    | error e => simp [hT, isErr]
    | ok t =>
      cases hC : sanitizeField (getField (.obj fs) "content") "content" with
      | error e => simp [hT, hC, isErr]
      | ok c =>
        exfalso
        have hTe : fieldInvalid (getField (.obj fs) "title") = false := by
          rw [← isErr_sanitizeField _ "title", hT]
          rfl
        have hCe : fieldInvalid (getField (.obj fs) "content") = false := by
          rw [← isErr_sanitizeField _ "content", hC]
          rfl
        rcases h with h | h
        · rw [hTe] at h
          cases h
        · rw [hCe] at h
          cases h
  | str s => rfl
  | num n => rfl
  | nonfinite => rfl
  | boolean b => rfl
  | null => rfl
  | undefined => rfl

theorem sendEntry_ok_decomp (store : KVStore) (params : JsValue) (g n : String)
    (s2 : KVStore) (rec : EntryRecord) (h : sendEntry store params g n = .ok (s2, rec)) :
    ∃ inp, validateEntryInput params = .ok inp ∧
      s2 = kvPut store (entryKey (resolveEntryId inp.id g))
        ⟨resolveEntryId inp.id g, inp.title, inp.content, inp.createdAt.getD n⟩ ∧
      rec = ⟨resolveEntryId inp.id g, inp.title, inp.content, inp.createdAt.getD n⟩ := by
  unfold sendEntry at h
  cases hv : validateEntryInput params with
  | error e =>
    rw [hv] at h
    cases h
  | ok inp =>
    rw [hv] at h
    have hpair : remoteInsertEntry store inp g n = (s2, rec) := by
      injection h
    refine ⟨inp, rfl, ?_, ?_⟩
    · have h1 : (remoteInsertEntry store inp g n).1 = s2 := by rw [hpair]
      exact h1.symm
    · have h2 : (remoteInsertEntry store inp g n).2 = rec := by rw [hpair]
      exact h2.symm

theorem validateEntryInput_ok_fields (params : JsValue) (inp : EntryInput)
    (st ct : String)
    (hT : getField params "title" = .str st)
    (hC : getField params "content" = .str ct)
    (h : validateEntryInput params = .ok inp) :
    inp.title = jsTrim st ∧ inp.content = jsTrim ct := by
  cases params with
  | obj fs =>
    unfold validateEntryInput at h
    rw [hT, hC] at h
    by_cases h1 : jsTrim st = ""
    · simp [sanitizeField, h1] at h
    · by_cases h2 : (jsTrim st).length > 2048
      · simp [sanitizeField, h1, h2] at h
      · by_cases h3 : jsTrim ct = ""
        · simp [sanitizeField, h1, h2, h3] at h
        · by_cases h4 : (jsTrim ct).length > 2048
          · simp [sanitizeField, h1, h2, h3, h4] at h
          · simp only [sanitizeField, h1, h2, h3, h4, if_false, if_neg, ite_false] at h
            cases inp
            simp [sanitizeField, h1, h2, h3, h4] at h
            obtain ⟨-, hti, hco, -⟩ := h
            exact ⟨hti.symm, hco.symm⟩
  | str s => cases hT
  | num n' => cases hT
  | nonfinite => cases hT
  | boolean b => cases hT
  | null => cases hT
  | undefined => cases hT

/-! ### Claim theorems C6 and C10 -/

/-- C6: a sendEntry request whose title or content fails validation (not
a string, empty after trimming, or longer than 2048 characters after
trimming), and a deleteEntry request without a usable identifier, are
rejected with a thrown TypeError before any storage access, leaving the
store unchanged. -/
theorem C6_validation_rejects (store : KVStore) (params dparams : JsValue)
    (genId nowIso : String)
    (h1 : fieldInvalid (getField params "title") = true ∨
          fieldInvalid (getField params "content") = true)
    (h2 : isErr (normalizeEntryIdentifier dparams) = true) :
    isErr (sendEntry store params genId nowIso) = true ∧
    sendEntryStore store params genId nowIso = store ∧
    isErr (deleteEntryRpc store dparams) = true ∧
    deleteEntryStore store dparams = store := by
  have hv : isErr (validateEntryInput params) = true := validate_err_of_invalid params h1
  cases hval : validateEntryInput params with
  | ok i =>
    rw [hval] at hv
    cases hv
  | error e =>
    cases hnorm : normalizeEntryIdentifier dparams with
    | ok i =>
      rw [hnorm] at h2
      cases h2
    | error e2 =>
      refine ⟨?_, ?_, ?_, ?_⟩ <;>
        simp [sendEntry, sendEntryStore, deleteEntryRpc, deleteEntryStore,
          hval, hnorm, isErr]

/-- C6 witness: a sendEntry payload whose title trims to empty and a
deleteEntry payload that is null. -/
theorem C6_witness :
    isErr (sendEntry []
      (.obj [("title", .str "  "), ("content", .str "x")]) "G" "N") = true ∧
    sendEntryStore []
      (.obj [("title", .str "  "), ("content", .str "x")]) "G" "N" = [] ∧
    isErr (deleteEntryRpc [] .null) = true ∧
    deleteEntryStore [] .null = [] :=
  C6_validation_rejects []
    (.obj [("title", .str "  "), ("content", .str "x")]) .null "G" "N"
    (Or.inl (by decide)) (by decide)

/-- C10: every accepted sendEntry call stores and returns the record with
title and content equal to the trimmed forms of the supplied strings,
persisted under the entry key of the returned id. -/
theorem C10_sendEntry_trims (store : KVStore) (params : JsValue)
    (genId nowIso : String) (store2 : KVStore) (rec : EntryRecord)
    (st ct : String)
    (hT : getField params "title" = .str st)
    (hC : getField params "content" = .str ct)
    (h : sendEntry store params genId nowIso = .ok (store2, rec)) :
    rec.title = jsTrim st ∧ rec.content = jsTrim ct ∧
    kvGet store2 (entryKey rec.id) = some rec := by
  obtain ⟨inp, hval, hs2, hrec⟩ := sendEntry_ok_decomp store params genId nowIso
    store2 rec h
  obtain ⟨hti, hco⟩ := validateEntryInput_ok_fields params inp st ct hT hC hval
  subst hs2
  subst hrec
  refine ⟨by simpa using hti, by simpa using hco, ?_⟩
  simpa using kvGet_kvPut_self store (entryKey (resolveEntryId inp.id genId))
    ⟨resolveEntryId inp.id genId, inp.title, inp.content, inp.createdAt.getD nowIso⟩

/-- C10 witness: a sendEntry call with untrimmed title and content
stores and returns the trimmed record. -/
theorem C10_witness :
    (⟨"G", "hi", "there", "N"⟩ : EntryRecord).title = jsTrim "  hi  " ∧
    (⟨"G", "hi", "there", "N"⟩ : EntryRecord).content = jsTrim " there " ∧
    kvGet (kvPut [] (entryKey "G") ⟨"G", "hi", "there", "N"⟩) (entryKey "G")
      = some ⟨"G", "hi", "there", "N"⟩ :=
  C10_sendEntry_trims [] (.obj [("title", .str "  hi  "), ("content", .str " there ")])
    "G" "N" (kvPut [] (entryKey "G") ⟨"G", "hi", "there", "N"⟩)
    ⟨"G", "hi", "there", "N"⟩ "  hi  " " there " rfl rfl rfl

/-! ### Lemmas about the transactional sync run -/

theorem tryExec_false_db (fail : Nat → Bool) (s : ExecState) (op : SqlOp)
    (s2 : ExecState) (h : tryExec fail s op = (false, s2)) : s2.db = s.db := by
  unfold tryExec at h
  split at h
  · injection h with h1 h2
    rw [← h2]
  · injection h with h1 h2
    cases h1

theorem tryExec_true_db (fail : Nat → Bool) (s : ExecState) (op : SqlOp)
    (s2 : ExecState) (h : tryExec fail s op = (true, s2)) :
    s2.db = applyOp s.db op := by
  unfold tryExec at h
  split at h
  · injection h with h1 h2
    cases h1
  · injection h with h1 h2
    rw [← h2]

theorem doCatch_committed (fail : Nat → Bool) (s : ExecState) :
    (doCatch fail s).db.committed = s.db.committed := by
  unfold doCatch tryExec
  split
  · rfl
  · rfl

theorem runUpserts_committed (fail : Nat → Bool) (es : List EntryRecord) :
    ∀ (s : ExecState) (t : List EntryRecord), s.db.txn = some t →
      ((runUpserts fail es s).2.db.committed = s.db.committed ∧
        ∃ t2, (runUpserts fail es s).2.db.txn = some t2) := by
  induction es with
  | nil =>
    intro s t ht
    exact ⟨rfl, t, ht⟩
  | cons e rest ih =>
    intro s t ht
    by_cases he : e.id = ""
    · simp only [runUpserts, if_pos he]
      exact ih s t ht
    · simp only [runUpserts, if_neg he]
      cases htry : tryExec fail s (.upsertOp e) with
      | mk b s1 =>
        cases b
        · simp only []
          have hdb := tryExec_false_db fail s (.upsertOp e) s1 htry
          rw [hdb]
          exact ⟨rfl, t, ht⟩
        · simp only []
          have hdb := tryExec_true_db fail s (.upsertOp e) s1 htry
          have hc : s1.db.committed = s.db.committed := by
            rw [hdb]
            simp [applyOp, ht]
          have ht1 : s1.db.txn = some (upsert t e) := by
            rw [hdb]
            simp [applyOp, ht]
          obtain ⟨hcom, t2, htx⟩ := ih s1 (upsert t e) ht1
          exact ⟨by rw [hcom, hc], t2, htx⟩

theorem syncEntriesRun_false_committed (db : DBState) (entries : List EntryRecord)
    (fail : Nat → Bool) :
    ∀ s : ExecState, syncEntriesRun db entries fail = (false, s) →
      s.db.committed = db.committed := by
  intro s hs
  by_cases hemp : entries = []
  · rw [syncEntriesRun, if_pos hemp] at hs
    injection hs with h1 h2
    cases h1
  · rw [syncEntriesRun, if_neg hemp] at hs
    split at hs
    · rename_i s1 heq
      injection hs with h1 h2
      rw [← h2, doCatch_committed]
      have hdb := tryExec_false_db fail ⟨db, 0, []⟩ .beginTxn s1 heq
      rw [hdb]
    · rename_i s1 heq
      have hdb1 := tryExec_true_db fail ⟨db, 0, []⟩ .beginTxn s1 heq
      have hc1 : s1.db.committed = db.committed := by
        rw [hdb1]
        rfl
      have ht1 : s1.db.txn = some db.committed := by
        rw [hdb1]
        rfl
      obtain ⟨hcom, t2, htx⟩ := runUpserts_committed fail entries s1 db.committed ht1
      split at hs
      · rename_i s2 heq2
        injection hs with h1 h2
        rw [← h2, doCatch_committed]
        rw [heq2] at hcom
        simp only [] at hcom
        rw [hcom, hc1]
      · rename_i s2 heq2
        rw [heq2] at hcom
        simp only [] at hcom
        split at hs
        · rename_i s3 heq3
          injection hs with h1 h2
          rw [← h2, doCatch_committed]
          have hdb3 := tryExec_false_db fail s2 .commit s3 heq3
          rw [hdb3, hcom, hc1]
        · injection hs with h1 h2
          cases h1

theorem runUpserts_nofail (es : List EntryRecord) :
    ∀ (c t : List EntryRecord) (k : Nat) (tr : List SqlOp),
      runUpserts (fun _ => false) es ⟨⟨c, some t⟩, k, tr⟩
        = (true, ⟨⟨c, some (applyBatch t es)⟩,
            k + (es.filter (fun e => e.id ≠ "")).length,
            tr ++ (es.filter (fun e => e.id ≠ "")).map SqlOp.upsertOp⟩) := by
  induction es with
  | nil =>
    intro c t k tr
    simp [runUpserts, applyBatch]
  | cons e rest ih =>
    intro c t k tr
    by_cases he : e.id = ""
    · simp only [runUpserts, if_pos he]
      rw [ih c t k tr]
      simp [applyBatch, he]
    · simp only [runUpserts, if_neg he]
      show runUpserts (fun _ => false) rest
          ⟨⟨c, some (upsert t e)⟩, k + 1, tr ++ [SqlOp.upsertOp e]⟩ = _
      rw [ih c (upsert t e) (k + 1) (tr ++ [SqlOp.upsertOp e])]
      have hfe : applyBatch t (e :: rest) = applyBatch (upsert t e) rest := by
        simp [applyBatch, he]
      have hfl : (e :: rest).filter (fun x => x.id ≠ "")
          = e :: rest.filter (fun x => x.id ≠ "") :=
        List.filter_cons_of_pos (by simp [he])
      rw [hfe, hfl]
      simp [Nat.add_assoc, Nat.add_comm]

theorem syncEntriesRun_nofail (db : DBState) (entries : List EntryRecord)
    (hemp : entries ≠ []) :
    syncEntriesRun db entries (fun _ => false)
      = (true, ⟨⟨applyBatch db.committed entries, none⟩,
          1 + (entries.filter (fun e => e.id ≠ "")).length + 1,
          [SqlOp.beginTxn] ++ (entries.filter (fun e => e.id ≠ "")).map SqlOp.upsertOp
            ++ [SqlOp.commit]⟩) := by
  rw [syncEntriesRun, if_neg hemp]
  split
  · rename_i s1 heq
    exfalso
    rw [show tryExec (fun _ => false) ⟨db, 0, []⟩ .beginTxn
        = (true, ⟨⟨db.committed, some db.committed⟩, 1, [SqlOp.beginTxn]⟩) from rfl] at heq
    injection heq with h1 h2
    cases h1
  · rename_i s1 heq
    rw [show tryExec (fun _ => false) ⟨db, 0, []⟩ .beginTxn
        = (true, ⟨⟨db.committed, some db.committed⟩, 1, [SqlOp.beginTxn]⟩) from rfl] at heq
    injection heq with h1 h2
    subst h2
    split
    · rename_i s2 heq2
      exfalso
      rw [runUpserts_nofail entries db.committed db.committed 1 [SqlOp.beginTxn]] at heq2
      injection heq2 with h1 h2
      cases h1
    · rename_i s2 heq2
      rw [runUpserts_nofail entries db.committed db.committed 1 [SqlOp.beginTxn]] at heq2
      injection heq2 with h1 h2
      subst h2
      split
      · rename_i s3 heq3
        exfalso
        rw [show tryExec (fun _ => false)
            ⟨⟨db.committed, some (applyBatch db.committed entries)⟩,
              1 + (entries.filter (fun e => e.id ≠ "")).length,
              [SqlOp.beginTxn] ++ (entries.filter (fun e => e.id ≠ "")).map SqlOp.upsertOp⟩
            .commit
            = (true, ⟨⟨applyBatch db.committed entries, none⟩,
                1 + (entries.filter (fun e => e.id ≠ "")).length + 1,
                ([SqlOp.beginTxn] ++ (entries.filter (fun e => e.id ≠ "")).map SqlOp.upsertOp)
                  ++ [SqlOp.commit]⟩) from rfl] at heq3
        injection heq3 with h1 h2
        cases h1
      · rename_i s3 heq3
        rw [show tryExec (fun _ => false)
            ⟨⟨db.committed, some (applyBatch db.committed entries)⟩,
              1 + (entries.filter (fun e => e.id ≠ "")).length,
              [SqlOp.beginTxn] ++ (entries.filter (fun e => e.id ≠ "")).map SqlOp.upsertOp⟩
            .commit
            = (true, ⟨⟨applyBatch db.committed entries, none⟩,
                1 + (entries.filter (fun e => e.id ≠ "")).length + 1,
                ([SqlOp.beginTxn] ++ (entries.filter (fun e => e.id ≠ "")).map SqlOp.upsertOp)
                  ++ [SqlOp.commit]⟩) from rfl] at heq3
        injection heq3 with h1 h2
        subst h2
        rfl

theorem lookupEntry_applyBatch (es : List EntryRecord) :
    ∀ (t : List EntryRecord) (i : String),
      i ∉ (es.filter (fun e => e.id ≠ "")).map (fun e => e.id) →
      lookupEntry (applyBatch t es) i = lookupEntry t i := by
  induction es with
  | nil =>
    intro t i h
    rfl
  | cons e rest ih =>
    intro t i h
    by_cases he : e.id = ""
    · have hfl : (e :: rest).filter (fun x => x.id ≠ "")
          = rest.filter (fun x => x.id ≠ "") :=
        List.filter_cons_of_neg (by simp [he])
      rw [hfl] at h
      have hb : applyBatch t (e :: rest) = applyBatch t rest := by
        simp [applyBatch, he]
      rw [hb]
      exact ih t i h
    · have hfl : (e :: rest).filter (fun x => x.id ≠ "")
          = e :: rest.filter (fun x => x.id ≠ "") :=
        List.filter_cons_of_pos (by simp [he])
      rw [hfl, List.map_cons, List.mem_cons] at h
      push_neg at h
      obtain ⟨hne, h2⟩ := h
      have hb : applyBatch t (e :: rest) = applyBatch (upsert t e) rest := by
        simp [applyBatch, he]
      rw [hb, ih (upsert t e) i h2]
      exact lookupEntry_upsert_other t e i hne

/-! ### Claim theorems C1 and C9 -/

/-- C1: whenever any exec call inside syncEntries throws, syncEntries
rethrows the error and the committed local store is left exactly as it
was (the transaction is rolled back, no entry of the batch is
observable), and syncRemoteEntries then leaves the pending remote update
map untouched; the map is cleared exactly when syncEntries returns
successfully after COMMIT. -/
theorem C1_rollback_on_failure (db : DBState) (entries : List EntryRecord)
    (fail : Nat → Bool) (ru : List (String × EntryRecord)) :
    ((syncEntriesRun db entries fail).1 = false →
       ((syncEntriesRun db entries fail).2.db.committed = db.committed ∧
        syncRemoteEntries db ru entries fail
          = ((syncEntriesRun db entries fail).2.db, ru))) ∧
    ((syncEntriesRun db entries fail).1 = true →
       syncRemoteEntries db ru entries fail
         = ((syncEntriesRun db entries fail).2.db, [])) := by
  cases hs : syncEntriesRun db entries fail with
  | mk b s =>
    constructor
    · intro h
      have hb : b = false := h
      subst hb
      refine ⟨syncEntriesRun_false_committed db entries fail s hs, ?_⟩
      unfold syncRemoteEntries
      rw [hs]
    · intro h
      have hb : b = true := h
      subst hb
      unfold syncRemoteEntries
      rw [hs]

/-- C1 witness: a one-entry batch whose upsert exec call (index 1)
throws; the store stays empty and the pending map keeps its entry, while
the same batch without faults clears the pending map. -/
theorem C1_witness :
    ((syncEntriesRun ⟨[], none⟩ [⟨"A", "t", "c", "d"⟩]
        (fun k => k = 1)).2.db.committed = [] ∧
      syncRemoteEntries ⟨[], none⟩ [("A", ⟨"A", "t", "c", "d"⟩)]
          [⟨"A", "t", "c", "d"⟩] (fun k => k = 1)
        = ((syncEntriesRun ⟨[], none⟩ [⟨"A", "t", "c", "d"⟩]
            (fun k => k = 1)).2.db, [("A", ⟨"A", "t", "c", "d"⟩)])) ∧
    syncRemoteEntries ⟨[], none⟩ [("A", ⟨"A", "t", "c", "d"⟩)]
        [⟨"A", "t", "c", "d"⟩] (fun _ => false)
      = ((syncEntriesRun ⟨[], none⟩ [⟨"A", "t", "c", "d"⟩]
          (fun _ => false)).2.db, []) :=
  ⟨(C1_rollback_on_failure ⟨[], none⟩ [⟨"A", "t", "c", "d"⟩]
      (fun k => k = 1) [("A", ⟨"A", "t", "c", "d"⟩)]).1 (by decide),
   (C1_rollback_on_failure ⟨[], none⟩ [⟨"A", "t", "c", "d"⟩]
      (fun _ => false) [("A", ⟨"A", "t", "c", "d"⟩)]).2 (by decide)⟩

/-- C9: a fault-free syncEntries run succeeds, writes only to records
keyed by the nonempty ids of the batch (any other key reads the same
afterwards), skips batch entries with an empty id (no upsert statement
for them appears in the executed trace), and an empty batch returns
immediately without issuing any SQL statement and without touching the
store. -/
theorem C9_sync_frame (db : DBState) (entries : List EntryRecord) (i : String)
    (hni : i ∉ (entries.filter (fun e => e.id ≠ "")).map (fun e => e.id)) :
    (entries = [] →
      syncEntriesRun db entries (fun _ => false) = (true, ⟨db, 0, []⟩)) ∧
    (syncEntriesRun db entries (fun _ => false)).1 = true ∧
    lookupEntry (syncEntriesRun db entries (fun _ => false)).2.db.committed i
      = lookupEntry db.committed i ∧
    (∀ e : EntryRecord,
      SqlOp.upsertOp e ∈ (syncEntriesRun db entries (fun _ => false)).2.trace →
      ¬ e.id = "") := by
  by_cases hemp : entries = []
  · subst hemp
    refine ⟨fun _ => rfl, rfl, rfl, ?_⟩
    intro e he
    simp [syncEntriesRun] at he
  · rw [syncEntriesRun_nofail db entries hemp]
    refine ⟨fun hc => absurd hc hemp, rfl, ?_, ?_⟩
    · exact lookupEntry_applyBatch entries db.committed i hni
    · intro e he
      simp only [List.mem_append, List.mem_singleton, List.mem_map] at he
      rcases he with (he | ⟨x, hx, hex⟩) | he
      · exact SqlOp.noConfusion he
      · have hxe : x = e := by injection hex
        subst hxe
        have hmem := List.of_mem_filter hx
        simpa using hmem
      · exact SqlOp.noConfusion he

/-- C9 witness: the theorem applied to the empty batch over a one-record
store, and to a two-entry batch (one empty id, one id B) over the same
store, reading back the untouched key Z. -/
theorem C9_witness :
    syncEntriesRun ⟨[⟨"Z", "a", "b", "c"⟩], none⟩ [] (fun _ => false)
      = (true, ⟨⟨[⟨"Z", "a", "b", "c"⟩], none⟩, 0, []⟩) ∧
    (syncEntriesRun ⟨[⟨"Z", "a", "b", "c"⟩], none⟩
        [⟨"", "x", "y", "z"⟩, ⟨"B", "t", "c", "d"⟩] (fun _ => false)).1 = true ∧
    lookupEntry (syncEntriesRun ⟨[⟨"Z", "a", "b", "c"⟩], none⟩
        [⟨"", "x", "y", "z"⟩, ⟨"B", "t", "c", "d"⟩] (fun _ => false)).2.db.committed "Z"
      = lookupEntry [⟨"Z", "a", "b", "c"⟩] "Z" ∧
    (∀ e : EntryRecord,
      SqlOp.upsertOp e ∈ (syncEntriesRun ⟨[⟨"Z", "a", "b", "c"⟩], none⟩
        [⟨"", "x", "y", "z"⟩, ⟨"B", "t", "c", "d"⟩] (fun _ => false)).2.trace →
      ¬ e.id = "") :=
  ⟨(C9_sync_frame ⟨[⟨"Z", "a", "b", "c"⟩], none⟩ [] "Q" (by decide)).1 rfl,
   (C9_sync_frame ⟨[⟨"Z", "a", "b", "c"⟩], none⟩
      [⟨"", "x", "y", "z"⟩, ⟨"B", "t", "c", "d"⟩] "Z" (by decide)).2.1,
   (C9_sync_frame ⟨[⟨"Z", "a", "b", "c"⟩], none⟩
      [⟨"", "x", "y", "z"⟩, ⟨"B", "t", "c", "d"⟩] "Z" (by decide)).2.2.1,
   (C9_sync_frame ⟨[⟨"Z", "a", "b", "c"⟩], none⟩
      [⟨"", "x", "y", "z"⟩, ⟨"B", "t", "c", "d"⟩] "Z" (by decide)).2.2.2⟩

end SqlWorker
